import Mathlib

/-!
A shallow embedding of the `vdntruong/dddcqrs` repository (Go), covering the
write-side Order aggregate, the command service with its aggregate-store /
event-store / outbox writes, the outbox publisher drain loop, the Kafka
event-bus message construction, and the read-side projection handler.

Modelling conventions:
- Go `error` returns become `Except String α`; an error constructor carries
  the Go error message and, since the Go methods mutate only on the success
  path, an error leaves the caller's state untouched.
- Go `int`/`int64` are modelled as `Int`. The repository's monetary amounts
  and quantities are plain machine integers; claims here do not concern
  overflow behaviour, so the arithmetic is embedded exactly.
- `time.Time` values are abstract tick counts (`Nat`); every Go call to
  `time.Now()` becomes an explicit `now : Nat` argument.
- UUIDs generated by `uuid.New()` become explicit `String` arguments.
- Serialized JSON payloads (`event_data []byte`) are modelled as the
  structured event value itself: `json.Marshal`/`Unmarshal` round-trip over
  the closed event-type switch, so serialization is the identity here.
- SQL tables become Lean lists of row values; `ON CONFLICT (id) DO UPDATE`
  upserts become key-based list updates.
- The Redis cache of the read model (a write-through copy with TTL) is
  elided; the claims quantify over the durable read-model record.
-/

namespace DDDCQRS

/-! ## shared/domain/valueobjects -/

/-- `OrderStatus` from `shared/domain/valueobjects/order_status.go`
(constants `OrderStatusDraft` … `OrderStatusCancelled`). -/
inductive OrderStatus where
  | draft
  | confirmed
  | shipped
  | delivered
  | cancelled
deriving DecidableEq, Repr

/-- `OrderStatus.CanTransitionTo` from `order_status.go`. -/
def OrderStatus.CanTransitionTo : OrderStatus → OrderStatus → Bool
  | .draft, newStatus => newStatus == .confirmed || newStatus == .cancelled
  | .confirmed, newStatus => newStatus == .shipped || newStatus == .cancelled
  | .shipped, newStatus => newStatus == .delivered
  | .delivered, _ => false
  | .cancelled, _ => false

/-- `Money` from `shared/domain/valueobjects/money.go` (`Amount int64`,
`Currency string`). -/
structure Money where
  amount : Int
  currency : String
deriving DecidableEq, Repr

/-- `Money.Validate` from `money.go`. -/
def Money.Validate (m : Money) : Except String Unit :=
  if m.currency = "" then .error "currency cannot be empty"
  else if m.currency.length ≠ 3 then .error "currency must be 3 characters"
  else .ok ()

/-- `Address` from `shared/domain/valueobjects` (address value object file). -/
structure Address where
  street : String
  city : String
  state : String
  zip : String
  country : String
deriving DecidableEq, Repr

/-- Go's `strings.TrimSpace`: strip leading and trailing whitespace. -/
def trimSpace (s : String) : String :=
  String.mk (((s.toList.dropWhile Char.isWhitespace).reverse.dropWhile
    Char.isWhitespace).reverse)

/-- `Address.Validate` from the address value object. -/
def Address.Validate (a : Address) : Except String Unit :=
  if trimSpace a.street = "" then .error "street cannot be empty"
  else if trimSpace a.city = "" then .error "city cannot be empty"
  else if trimSpace a.state = "" then .error "state cannot be empty"
  else if trimSpace a.zip = "" then .error "zip cannot be empty"
  else if trimSpace a.country = "" then .error "country cannot be empty"
  else .ok ()

/-! ## shared/domain/entities: the Order aggregate -/

/-- `OrderItem` from the Order entity file (`ProductID`, `Quantity int`,
`Price Money`). -/
structure OrderItem where
  productID : String
  quantity : Int
  price : Money
deriving DecidableEq, Repr

/-- `Order` from the Order entity file. `ID OrderID` is a string. -/
structure Order where
  id : String
  customerID : String
  items : List OrderItem
  status : OrderStatus
  totalAmount : Money
  shippingAddress : Address
  createdAt : Nat
  updatedAt : Nat
deriving DecidableEq, Repr

/-- `NewOrder` from the Order entity file; the generated UUID and the two
`time.Now()` reads are explicit arguments. -/
def NewOrder (id customerID : String) (shippingAddress : Address) (now : Nat) : Order :=
  { id := id
    customerID := customerID
    items := []
    status := .draft
    totalAmount := { amount := 0, currency := "" }
    shippingAddress := shippingAddress
    createdAt := now
    updatedAt := now }

/-- The loop body of `Order.recalculateTotal`:
`itemTotal := item.Price.Amount * int64(item.Quantity); total += itemTotal`. -/
def recalcFold (items : List OrderItem) : Int :=
  items.foldl (fun total item => total + item.price.amount * item.quantity) 0

/-- `Order.recalculateTotal` from the Order entity file: sums
`Price.Amount * Quantity` over the items and installs the total with
currency hard-coded to `"USD"`. -/
def Order.recalculateTotal (o : Order) : Order :=
  { o with totalAmount := { amount := recalcFold o.items, currency := "USD" } }

/-- `Order.AddItem` from the Order entity file. -/
def Order.AddItem (o : Order) (productID : String) (quantity : Int) (price : Money)
    (now : Nat) : Except String Order :=
  if o.status ≠ .draft then .error "cannot modify order that is not in draft status"
  else if quantity ≤ 0 then .error "quantity must be greater than zero"
  else
    let item : OrderItem := { productID := productID, quantity := quantity, price := price }
    let o := { o with items := o.items ++ [item] }
    .ok { o.recalculateTotal with updatedAt := now }

/-- The removal loop in `Order.RemoveItem`: drop the first item whose
`ProductID` matches, or report that no item matched. -/
def removeFirstItem (productID : String) : List OrderItem → Option (List OrderItem)
  | [] => none
  | item :: rest =>
      if item.productID == productID then some rest
      else (removeFirstItem productID rest).map (item :: ·)

/-- `Order.RemoveItem` from the Order entity file. -/
def Order.RemoveItem (o : Order) (productID : String) (now : Nat) : Except String Order :=
  if o.status ≠ .draft then .error "cannot modify order that is not in draft status"
  else
    match removeFirstItem productID o.items with
    | some items =>
        let o := { o with items := items }
        .ok { o.recalculateTotal with updatedAt := now }
    | none => .error "item not found"

/-- `Order.Confirm` from the Order entity file. -/
def Order.Confirm (o : Order) (now : Nat) : Except String Order :=
  if o.status ≠ .draft then .error "can only confirm draft orders"
  else if o.items = [] then .error "cannot confirm order without items"
  else .ok { o with status := .confirmed, updatedAt := now }

/-- `Order.Cancel` from the Order entity file: only `shipped` and
`delivered` are rejected. -/
def Order.Cancel (o : Order) (now : Nat) : Except String Order :=
  if o.status = .shipped ∨ o.status = .delivered then
    .error "cannot cancel shipped or delivered orders"
  else .ok { o with status := .cancelled, updatedAt := now }

/-- `Order.Ship` from the Order entity file. -/
def Order.Ship (o : Order) (now : Nat) : Except String Order :=
  if o.status ≠ .confirmed then .error "can only ship confirmed orders"
  else .ok { o with status := .shipped, updatedAt := now }

/-- `Order.Deliver` from the Order entity file. -/
def Order.Deliver (o : Order) (now : Nat) : Except String Order :=
  if o.status ≠ .shipped then .error "can only deliver shipped orders"
  else .ok { o with status := .delivered, updatedAt := now }

/-! ## shared/domain/events -/

/-- `BaseDomainEvent` from `shared/domain/events/domain_event.go`
(`event_type`, `aggregate_id`, `occurred_at`). -/
structure BaseDomainEvent where
  eventType : String
  aggregateID : String
  occurredAt : Nat
deriving DecidableEq, Repr

/-- `OrderItemData` from the order events file. -/
structure OrderItemData where
  productID : String
  quantity : Int
  price : Money
deriving DecidableEq, Repr

/-- The closed set of concrete event structs from the order events file
(`OrderCreatedEvent` … `OrderItemRemovedEvent`), represented as a sum so
the type-switch dispatches in the publisher's `parseEvent` and the
projection handler's `Handle` are exhaustive matches. -/
inductive DomainEvent where
  | created (base : BaseDomainEvent) (customerID : String) (items : List OrderItemData)
      (totalAmount : Money) (shippingAddress : Address)
  | confirmed (base : BaseDomainEvent) (customerID : String)
  | shipped (base : BaseDomainEvent) (customerID : String)
  | delivered (base : BaseDomainEvent) (customerID : String)
  | cancelled (base : BaseDomainEvent) (customerID : String) (reason : String)
  | itemAdded (base : BaseDomainEvent) (productID : String) (quantity : Int) (price : Money)
  | itemRemoved (base : BaseDomainEvent) (productID : String)
deriving DecidableEq, Repr

/-- The embedded `BaseDomainEvent` of a concrete event struct. -/
def DomainEvent.base : DomainEvent → BaseDomainEvent
  | .created b _ _ _ _ => b
  | .confirmed b _ => b
  | .shipped b _ => b
  | .delivered b _ => b
  | .cancelled b _ _ => b
  | .itemAdded b _ _ _ => b
  | .itemRemoved b _ => b

/-- `DomainEvent.Type()` (interface method forwarded to the base struct). -/
def DomainEvent.Type (e : DomainEvent) : String := e.base.eventType

/-- `DomainEvent.AggregateID()` (interface method forwarded to the base struct). -/
def DomainEvent.AggregateID (e : DomainEvent) : String := e.base.aggregateID

/-- `DomainEvent.OccurredAt()` (interface method forwarded to the base struct). -/
def DomainEvent.OccurredAt (e : DomainEvent) : Nat := e.base.occurredAt

/-- `NewOrderCreatedEvent` from the order events file; `time.Now()` is the
explicit `now`. -/
def NewOrderCreatedEvent (order : Order) (now : Nat) : DomainEvent :=
  .created
    { eventType := "OrderCreated", aggregateID := order.id, occurredAt := now }
    order.customerID
    (order.items.map fun item =>
      { productID := item.productID, quantity := item.quantity, price := item.price })
    order.totalAmount
    order.shippingAddress

/-- `NewOrderConfirmedEvent` from the order events file. -/
def NewOrderConfirmedEvent (order : Order) (now : Nat) : DomainEvent :=
  .confirmed
    { eventType := "OrderConfirmed", aggregateID := order.id, occurredAt := now }
    order.customerID

/-- `NewOrderCancelledEvent` from the order events file. -/
def NewOrderCancelledEvent (order : Order) (reason : String) (now : Nat) : DomainEvent :=
  .cancelled
    { eventType := "OrderCancelled", aggregateID := order.id, occurredAt := now }
    order.customerID reason

/-- `NewOrderItemAddedEvent` from the order events file. -/
def NewOrderItemAddedEvent (order : Order) (productID : String) (quantity : Int)
    (price : Money) (now : Nat) : DomainEvent :=
  .itemAdded
    { eventType := "OrderItemAdded", aggregateID := order.id, occurredAt := now }
    productID quantity price

/-- `NewOrderItemRemovedEvent` from the order events file. -/
def NewOrderItemRemovedEvent (order : Order) (productID : String) (now : Nat) : DomainEvent :=
  .itemRemoved
    { eventType := "OrderItemRemoved", aggregateID := order.id, occurredAt := now }
    productID

/-! ## order-management-service/internal/repositories: persisted rows -/

/-- A row of the `outbox_events` table
(`outbox_repository.go`: `OutboxEvent` — `id`, `event_type`,
`event_data`, `created_at`, `processed`). The serialized `event_data`
bytes are modelled as the event value. -/
structure OutboxEvent where
  id : String
  eventType : String
  eventData : DomainEvent
  createdAt : Nat
  processed : Bool
deriving DecidableEq, Repr

/-- A row of the `events` table written by `eventStore.SaveEvents`
(`event_store.go`: columns `aggregate_id`, `event_type`, `event_data`,
`version`, `occurred_at`). -/
structure EventStoreRow where
  aggregateID : String
  eventType : String
  eventData : DomainEvent
  version : Int
  occurredAt : Nat
deriving DecidableEq, Repr

/-- The three write-side tables owned by the order-management service:
`orders` (+ `order_items`, folded into the `Order` value as
`orderRepository.Save`/`FindByID` read and write them together),
`events`, and `outbox_events`. -/
structure WriteState where
  orders : List Order
  eventStore : List EventStoreRow
  outbox : List OutboxEvent
deriving DecidableEq, Repr

/-- `orderRepository.Save` / `Update`: an `INSERT … ON CONFLICT (id) DO
UPDATE` upsert of the order row plus a wholesale rewrite of its
`order_items` rows. -/
def upsertOrder : List Order → Order → List Order
  | [], o => [o]
  | row :: rest, o =>
      if row.id == o.id then o :: rest else row :: upsertOrder rest o

/-- `orderRepository.FindByID`: the `WHERE id = $1` row lookup. -/
def findOrderByID (orders : List Order) (id : String) : Option Order :=
  orders.find? (fun o => o.id == id)

/-- `eventStore.SaveEvents`: inserts each event at
`version := expectedVersion + i + 1` with `occurred_at` from the event. -/
def SaveEvents (rows : List EventStoreRow) (aggregateID : String)
    (domainEvents : List DomainEvent) (expectedVersion : Int) : List EventStoreRow :=
  rows ++ (domainEvents.enum.map fun (i, event) =>
    { aggregateID := aggregateID
      eventType := event.Type
      eventData := event
      version := expectedVersion + (i : Int) + 1
      occurredAt := event.OccurredAt })

/-- `outboxRepository.SaveEvent`: inserts an unprocessed outbox row; the
generated row UUID and `time.Now()` are explicit. -/
def outboxSaveEvent (outbox : List OutboxEvent) (rowID : String) (event : DomainEvent)
    (now : Nat) : List OutboxEvent :=
  outbox ++ [{ id := rowID, eventType := event.Type, eventData := event,
               createdAt := now, processed := false }]

/-! ## order-management-service/internal/handlers: the command service

`CommandService` issues its repository calls one after another on the
shared `*sql.DB` handle — there is no enclosing transaction. To express
what is observable when one of those storage calls fails, each command
takes a `StorageFaults` record saying which call errors (a failing call
writes nothing; a successful call commits immediately). Each command
returns the Go return value together with the database state as left
behind. -/

/-- Transient-failure injection for the three storage calls a command
makes. `orderSaveFails` covers `OrderRepo.Save`/`Update`. -/
structure StorageFaults where
  orderSaveFails : Bool
  eventStoreFails : Bool
  outboxFails : Bool
deriving DecidableEq, Repr

/-- `OrderItemCommand` from the command definitions file. -/
structure OrderItemCommand where
  productID : String
  quantity : Int
  price : Money
deriving DecidableEq, Repr

/-- `CreateOrderCommand` from the command definitions file. -/
structure CreateOrderCommand where
  customerID : String
  items : List OrderItemCommand
  shippingAddress : Address
deriving DecidableEq, Repr

/-- `OrderItemCommand.Validate` from the command definitions file. -/
def OrderItemCommand.Validate (i : OrderItemCommand) : Except String Unit :=
  if i.productID = "" then .error "product_id is required"
  else if i.quantity ≤ 0 then .error "quantity must be greater than zero"
  else match i.price.Validate with
    | .error e => .error ("invalid price: " ++ e)
    | .ok _ => .ok ()

/-- The item-validation loop inside `CreateOrderCommand.Validate`. -/
def validateItems : List OrderItemCommand → Except String Unit
  | [] => .ok ()
  | i :: rest =>
      match i.Validate with
      | .error e => .error ("invalid item: " ++ e)
      | .ok _ => validateItems rest

/-- `CreateOrderCommand.Validate` from the command definitions file. -/
def CreateOrderCommand.Validate (c : CreateOrderCommand) : Except String Unit :=
  if c.customerID = "" then .error "customer_id is required"
  else if c.items = [] then .error "at least one item is required"
  else match c.shippingAddress.Validate with
    | .error e => .error ("invalid shipping address: " ++ e)
    | .ok _ => validateItems c.items

/-- The item loop in `CommandService.CreateOrder`: `order.AddItem` for each
command item, aborting on the first error. -/
def addItemsLoop (order : Order) (items : List OrderItemCommand) (now : Nat) :
    Except String Order :=
  match items with
  | [] => .ok order
  | i :: rest =>
      match order.AddItem i.productID i.quantity i.price now with
      | .error e => .error ("failed to add item: " ++ e)
      | .ok order => addItemsLoop order rest now

/-- `CommandService.CreateOrder` from `command_service.go`: validate, build
the aggregate, then — with no enclosing transaction — save the aggregate,
append the `OrderCreated` event to the event store at
`expectedVersion = 0`, and insert the outbox row. Each storage call that
the fault record marks as failing returns an error, leaving the state
committed by the preceding calls in place. -/
def CommandService.CreateOrder (st : WriteState) (f : StorageFaults)
    (cmd : CreateOrderCommand) (newOrderID outboxRowID : String) (now : Nat) :
    Except String Order × WriteState :=
  match cmd.Validate with
  | .error e => (.error ("invalid command: " ++ e), st)
  | .ok _ =>
    match addItemsLoop (NewOrder newOrderID cmd.customerID cmd.shippingAddress now)
        cmd.items now with
    | .error e => (.error e, st)
    | .ok order =>
      if f.orderSaveFails then (.error "failed to save order", st)
      else
        let st := { st with orders := upsertOrder st.orders order }
        let event := NewOrderCreatedEvent order now
        if f.eventStoreFails then (.error "failed to save event", st)
        else
          let st := { st with eventStore := SaveEvents st.eventStore order.id [event] 0 }
          if f.outboxFails then (.error "failed to save event to outbox", st)
          else
            (.ok order, { st with outbox := outboxSaveEvent st.outbox outboxRowID event now })

/-- `CommandService.ConfirmOrder` from `command_service.go`: find, confirm,
update the aggregate row, and insert the `OrderConfirmed` outbox row —
again as bare sequential calls. The event store is never touched. -/
def CommandService.ConfirmOrder (st : WriteState) (f : StorageFaults)
    (orderID outboxRowID : String) (now : Nat) : Except String Unit × WriteState :=
  match findOrderByID st.orders orderID with
  | none => (.error "failed to find order", st)
  | some order =>
    match order.Confirm now with
    | .error e => (.error ("failed to confirm order: " ++ e), st)
    | .ok order =>
      if f.orderSaveFails then (.error "failed to update order", st)
      else
        let st := { st with orders := upsertOrder st.orders order }
        let event := NewOrderConfirmedEvent order now
        if f.outboxFails then (.error "failed to save event to outbox", st)
        else
          (.ok (), { st with outbox := outboxSaveEvent st.outbox outboxRowID event now })

/-- `CommandService.CancelOrder` from `command_service.go`. -/
def CommandService.CancelOrder (st : WriteState) (f : StorageFaults)
    (orderID : String) (reason : String) (outboxRowID : String) (now : Nat) :
    Except String Unit × WriteState :=
  match findOrderByID st.orders orderID with
  | none => (.error "failed to find order", st)
  | some order =>
    match order.Cancel now with
    | .error e => (.error ("failed to cancel order: " ++ e), st)
    | .ok order =>
      if f.orderSaveFails then (.error "failed to update order", st)
      else
        let st := { st with orders := upsertOrder st.orders order }
        let event := NewOrderCancelledEvent order reason now
        if f.outboxFails then (.error "failed to save event to outbox", st)
        else
          (.ok (), { st with outbox := outboxSaveEvent st.outbox outboxRowID event now })

/-- `CommandService.AddOrderItem` from `command_service.go`. -/
def CommandService.AddOrderItem (st : WriteState) (f : StorageFaults)
    (orderID productID : String) (quantity : Int) (price : Money)
    (outboxRowID : String) (now : Nat) : Except String Unit × WriteState :=
  match findOrderByID st.orders orderID with
  | none => (.error "failed to find order", st)
  | some order =>
    match order.AddItem productID quantity price now with
    | .error e => (.error ("failed to add item: " ++ e), st)
    | .ok order =>
      if f.orderSaveFails then (.error "failed to update order", st)
      else
        let st := { st with orders := upsertOrder st.orders order }
        let event := NewOrderItemAddedEvent order productID quantity price now
        if f.outboxFails then (.error "failed to save event to outbox", st)
        else
          (.ok (), { st with outbox := outboxSaveEvent st.outbox outboxRowID event now })

/-- `CommandService.RemoveOrderItem` from `command_service.go`. -/
def CommandService.RemoveOrderItem (st : WriteState) (f : StorageFaults)
    (orderID productID : String) (outboxRowID : String) (now : Nat) :
    Except String Unit × WriteState :=
  match findOrderByID st.orders orderID with
  | none => (.error "failed to find order", st)
  | some order =>
    match order.RemoveItem productID now with
    | .error e => (.error ("failed to remove item: " ++ e), st)
    | .ok order =>
      if f.orderSaveFails then (.error "failed to update order", st)
      else
        let st := { st with orders := upsertOrder st.orders order }
        let event := NewOrderItemRemovedEvent order productID now
        if f.outboxFails then (.error "failed to save event to outbox", st)
        else
          (.ok (), { st with outbox := outboxSaveEvent st.outbox outboxRowID event now })

/-! ## shared/infrastructure/eventbus: Kafka message construction -/

/-- `kafka.Header` (key/value pair attached to a message). -/
structure KafkaHeader where
  key : String
  value : String
deriving DecidableEq, Repr

/-- The `kafka.Message` assembled by `KafkaEventBus.Publish`. `partition`
is the raw partition field (`kafka.PartitionAny = -1` means "let the
partitioner choose"); `key` is the optional message key Kafka's default
partitioner hashes to pick a partition — `none` when the field is left
unset. The serialized `Value` bytes are the event itself. -/
structure KafkaMessage where
  topic : String
  partition : Int
  key : Option String
  value : DomainEvent
  headers : List KafkaHeader
deriving DecidableEq, Repr

/-- `kafka.PartitionAny`. -/
def kafkaPartitionAny : Int := -1

/-- The message-construction half of `KafkaEventBus.Publish` from the
Kafka event-bus file: topic `"orders"`, partition `PartitionAny`, no
message key, and the event type and aggregate identity carried as
headers. -/
def KafkaEventBus.buildMessage (event : DomainEvent) : KafkaMessage :=
  { topic := "orders"
    partition := kafkaPartitionAny
    key := none
    value := event
    headers := [{ key := "event-type", value := event.Type },
                { key := "aggregate-id", value := event.AggregateID }] }

/-- `KafkaEventBus.Publish`: build the message, hand it to the producer
and wait on the delivery channel; the broker's acknowledgement is an
oracle on the built message. -/
def KafkaEventBus.Publish (ack : KafkaMessage → Bool) (event : DomainEvent) :
    Except String KafkaMessage :=
  let message := KafkaEventBus.buildMessage event
  if ack message then .ok message else .error "delivery failed"

/-! ## order-management-service: the outbox publisher drain loop -/

/-- The insertion step of the `ORDER BY created_at ASC` sort in
`outboxRepository.GetUnprocessedEvents` (ties are returned in an
unspecified relative order; this model keeps them stable). -/
def insertByCreatedAt (e : OutboxEvent) : List OutboxEvent → List OutboxEvent
  | [] => [e]
  | x :: xs =>
      if x.createdAt ≤ e.createdAt then x :: insertByCreatedAt e xs
      else e :: x :: xs

/-- `ORDER BY created_at ASC` over a list of outbox rows. -/
def sortByCreatedAt : List OutboxEvent → List OutboxEvent
  | [] => []
  | x :: xs => insertByCreatedAt x (sortByCreatedAt xs)

/-- `outboxRepository.GetUnprocessedEvents`:
`WHERE processed = false ORDER BY created_at ASC LIMIT 100`. -/
def GetUnprocessedEvents (outbox : List OutboxEvent) : List OutboxEvent :=
  (sortByCreatedAt (outbox.filter (fun e => !e.processed))).take 100

/-- `outboxRepository.MarkAsProcessed`:
`UPDATE outbox_events SET processed = true WHERE id = $1`. -/
def MarkAsProcessed (outbox : List OutboxEvent) (eventID : String) : List OutboxEvent :=
  outbox.map fun e => if e.id == eventID then { e with processed := true } else e

/-- `EventPublisher.parseEvent`: the closed switch over the stored
`event_type` string; a recognised type unmarshals the stored payload,
an unrecognised one is an error. -/
def EventPublisher.parseEvent (eventType : String) (eventData : DomainEvent) :
    Except String DomainEvent :=
  if eventType = "OrderCreated" ∨ eventType = "OrderConfirmed" ∨
     eventType = "OrderShipped" ∨ eventType = "OrderDelivered" ∨
     eventType = "OrderCancelled" ∨ eventType = "OrderItemAdded" ∨
     eventType = "OrderItemRemoved" then .ok eventData
  else .error ("unknown event type: " ++ eventType)

/-- `EventPublisher.processEvent`: parse the outbox row's payload and
publish it to the bus; `ack` is the broker acknowledgement oracle. -/
def EventPublisher.processEvent (ack : KafkaMessage → Bool) (outboxEvent : OutboxEvent) :
    Except String KafkaMessage :=
  match EventPublisher.parseEvent outboxEvent.eventType outboxEvent.eventData with
  | .error e => .error e
  | .ok event => KafkaEventBus.Publish ack event

/-- `EventPublisher.processBatch`: fetch the unprocessed batch, attempt
each entry, and mark an entry processed only when `processEvent`
succeeded (a failure is logged and the loop continues); `markOk` says
whether the `MarkAsProcessed` update itself commits (its failure is also
only logged). Returns the outbox table as left behind. -/
def EventPublisher.processBatch (outbox : List OutboxEvent)
    (ack : KafkaMessage → Bool) (markOk : OutboxEvent → Bool) : List OutboxEvent :=
  (GetUnprocessedEvents outbox).foldl
    (fun st outboxEvent =>
      match EventPublisher.processEvent ack outboxEvent with
      | .error _ => st
      | .ok _ => if markOk outboxEvent then MarkAsProcessed st outboxEvent.id else st)
    outbox

/-! ## order-reporting-service: read model and projection handler -/

/-- `OrderItemDTO` from the order read model file. -/
structure OrderItemDTO where
  productID : String
  quantity : Int
  price : Money
deriving DecidableEq, Repr

/-- `OrderDTO` from the order read model file: the denormalized
`order_read_models` row (items are stored as a JSON column). -/
structure OrderDTO where
  id : String
  customerID : String
  status : String
  totalAmount : Money
  shippingAddress : Address
  items : List OrderItemDTO
  createdAt : Nat
  updatedAt : Nat
deriving DecidableEq, Repr

/-- The per-item currency normalization in `orderReadModel.GetOrder`:
`order.Items[i].Price.Currency = "USD"`. -/
def normItemDTO (i : OrderItemDTO) : OrderItemDTO :=
  { i with price := { i.price with currency := "USD" } }

/-- The currency normalization `orderReadModel.GetOrder` performs after
scanning a row: the DB stores only amounts, so the currency of the total
and of every item price is set to `"USD"`. -/
def normalizeDTO (o : OrderDTO) : OrderDTO :=
  { o with
    totalAmount := { o.totalAmount with currency := "USD" }
    items := o.items.map normItemDTO }

/-- `orderReadModel.CreateOrder`: `INSERT … ON CONFLICT (id) DO UPDATE`
on `order_read_models`; on conflict every column except `id` and
`created_at` is overwritten. -/
def OrderReadModel.CreateOrder : List OrderDTO → OrderDTO → List OrderDTO
  | [], order => [order]
  | row :: rest, order =>
      if row.id == order.id then { order with createdAt := row.createdAt } :: rest
      else row :: OrderReadModel.CreateOrder rest order

/-- `orderReadModel.UpdateOrder`: "Same as create due to UPSERT". -/
def OrderReadModel.UpdateOrder (db : List OrderDTO) (order : OrderDTO) : List OrderDTO :=
  OrderReadModel.CreateOrder db order

/-- `orderReadModel.GetOrder`: the `WHERE id = $1` row fetch
(`sql.ErrNoRows` becomes "order not found"), including the post-scan
currency normalization. -/
def OrderReadModel.GetOrder (db : List OrderDTO) (orderID : String) :
    Except String OrderDTO :=
  match db.find? (fun o => o.id == orderID) with
  | none => .error "order not found"
  | some row => .ok (normalizeDTO row)

/-- The recomputation loop shared by `handleOrderItemAdded` and
`handleOrderItemRemoved`: `total += item.Price.Amount * int64(item.Quantity)`. -/
def sumItemsDTO (items : List OrderItemDTO) : Int :=
  items.foldl (fun total item => total + item.price.amount * item.quantity) 0

/-- The removal loop in `handleOrderItemRemoved`: remove the first item
matching the product identity (no error if none matches). -/
def removeFirstItemDTO (productID : String) : List OrderItemDTO → List OrderItemDTO
  | [] => []
  | item :: rest =>
      if item.productID == productID then rest
      else item :: removeFirstItemDTO productID rest

/-- `OrderProjectionHandler.Handle` from `projection_handler.go`: the
type-switch over the event kinds, each branch the body of the
corresponding `handleOrder…` method. -/
def OrderProjectionHandler.Handle (event : DomainEvent) (db : List OrderDTO) :
    Except String (List OrderDTO) :=
  match event with
  | .created base customerID items totalAmount shippingAddress =>
      .ok (OrderReadModel.CreateOrder db
        { id := base.aggregateID
          customerID := customerID
          status := "draft"
          totalAmount := totalAmount
          shippingAddress := shippingAddress
          items := items.map fun i =>
            { productID := i.productID, quantity := i.quantity, price := i.price }
          createdAt := base.occurredAt
          updatedAt := base.occurredAt })
  | .confirmed base _ =>
      match OrderReadModel.GetOrder db base.aggregateID with
      | .error e => .error e
      | .ok order =>
          .ok (OrderReadModel.UpdateOrder db
            { order with status := "confirmed", updatedAt := base.occurredAt })
  | .shipped base _ =>
      match OrderReadModel.GetOrder db base.aggregateID with
      | .error e => .error e
      | .ok order =>
          .ok (OrderReadModel.UpdateOrder db
            { order with status := "shipped", updatedAt := base.occurredAt })
  | .delivered base _ =>
      match OrderReadModel.GetOrder db base.aggregateID with
      | .error e => .error e
      | .ok order =>
          .ok (OrderReadModel.UpdateOrder db
            { order with status := "delivered", updatedAt := base.occurredAt })
  | .cancelled base _ _ =>
      match OrderReadModel.GetOrder db base.aggregateID with
      | .error e => .error e
      | .ok order =>
          .ok (OrderReadModel.UpdateOrder db
            { order with status := "cancelled", updatedAt := base.occurredAt })
  | .itemAdded base productID quantity price =>
      match OrderReadModel.GetOrder db base.aggregateID with
      | .error e => .error e
      | .ok order =>
          let items := order.items ++
            [{ productID := productID, quantity := quantity, price := price }]
          .ok (OrderReadModel.UpdateOrder db
            { order with
              items := items
              updatedAt := base.occurredAt
              totalAmount := { order.totalAmount with amount := sumItemsDTO items } })
  | .itemRemoved base productID =>
      match OrderReadModel.GetOrder db base.aggregateID with
      | .error e => .error e
      | .ok order =>
          let items := removeFirstItemDTO productID order.items
          .ok (OrderReadModel.UpdateOrder db
            { order with
              items := items
              updatedAt := base.occurredAt
              totalAmount := { order.totalAmount with amount := sumItemsDTO items } })

/-- The read-model table as observed after a `Handle` call: the consumer
redelivers on error, so an error leaves the table as it was. -/
def applyEvent (event : DomainEvent) (db : List OrderDTO) : List OrderDTO :=
  match OrderProjectionHandler.Handle event db with
  | .ok db => db
  | .error _ => db

/-! ## Helper lemmas -/

/-- The running-total loop computes the sum of the mapped values. -/
theorem foldl_add_map {α : Type} (f : α → Int) :
    ∀ (l : List α) (a : Int), l.foldl (fun t i => t + f i) a = a + (l.map f).sum := by
  intro l
  induction l with
  | nil => intro a; simp
  | cons x xs ih =>
      intro a
      simp only [List.foldl_cons, List.map_cons, List.sum_cons, ih]
      ring

/-- `recalculateTotal`'s loop equals the mathematical sum of the item
subtotals. -/
theorem recalcFold_eq_sum (items : List OrderItem) :
    recalcFold items = (items.map (fun i : OrderItem => i.price.amount * i.quantity)).sum := by
  unfold recalcFold
  rw [foldl_add_map]
  simp

/-! ## Claim theorems: the Order aggregate -/

/-- C9: `Order.Confirm` succeeds exactly on a Draft order with at least
one item, and on a Draft order with an empty items list it reports the
dedicated error (the order value is untouched since the method returns
before mutating). -/
theorem claim_C9 (o : Order) (now : Nat) :
    ((∃ o', o.Confirm now = .ok o') ↔ (o.status = .draft ∧ o.items ≠ [])) ∧
    (o.status = .draft → o.items = [] →
      o.Confirm now = .error "cannot confirm order without items") := by
  constructor
  · constructor
    · intro ⟨o', h⟩
      unfold Order.Confirm at h
      by_cases hs : o.status = .draft
      · by_cases hi : o.items = []
        · simp [hs, hi] at h
        · exact ⟨hs, hi⟩
      · simp [hs] at h
    · intro ⟨hs, hi⟩
      refine ⟨{ o with status := .confirmed, updatedAt := now }, ?_⟩
      simp [Order.Confirm, hs, hi]
  · intro hs hi
    simp [Order.Confirm, hs, hi]

/-- C9 witness: a Draft order with no items is rejected with the
dedicated error. -/
theorem claim_C9_witness :
    (NewOrder "order-9" "customer-9"
        { street := "s", city := "c", state := "st", zip := "z", country := "US" } 0).Confirm 3 =
      .error "cannot confirm order without items" :=
  (claim_C9 (NewOrder "order-9" "customer-9"
      { street := "s", city := "c", state := "st", zip := "z", country := "US" } 0) 3).2 rfl rfl

/-- A concrete already-cancelled order used to exercise `Order.Cancel`. -/
def cancelledOrderW : Order :=
  { id := "order-3"
    customerID := "customer-3"
    items := [{ productID := "p1", quantity := 1, price := { amount := 100, currency := "USD" } }]
    status := .cancelled
    totalAmount := { amount := 100, currency := "USD" }
    shippingAddress := { street := "s", city := "c", state := "st", zip := "z", country := "US" }
    createdAt := 1
    updatedAt := 2 }

/-- C3 counterexample: cancelling an already-cancelled order is not
rejected — `Order.Cancel` only guards against `shipped` and `delivered`,
so on a `cancelled` order it succeeds. -/
theorem claim_C3_counterexample :
    Order.Cancel cancelledOrderW 7 =
      .ok { cancelledOrderW with status := .cancelled, updatedAt := 7 } := rfl

/-- C3 (amended): the transition methods reject exactly the complement of
their legal source states and an error leaves the order untouched;
`Delivered` allows no successful transition at all, but `Cancelled` is
terminal only up to the idempotent re-cancel: `Cancel` is rejected solely
on `shipped`/`delivered` orders, so cancelling an already-cancelled order
succeeds while leaving the status `cancelled`. The unused
`OrderStatus.CanTransitionTo` helper does encode the spec's exact table. -/
theorem claim_C3 (o : Order) (now : Nat) :
    (o.status ≠ .draft → o.Confirm now = .error "can only confirm draft orders") ∧
    (o.status ≠ .confirmed → o.Ship now = .error "can only ship confirmed orders") ∧
    (o.status ≠ .shipped → o.Deliver now = .error "can only deliver shipped orders") ∧
    (o.status = .shipped ∨ o.status = .delivered →
      o.Cancel now = .error "cannot cancel shipped or delivered orders") ∧
    (o.status = .cancelled →
      ∃ o', o.Cancel now = .ok o' ∧ o'.status = .cancelled) ∧
    (∀ s t : OrderStatus, s.CanTransitionTo t = true ↔
      ((s = .draft ∧ (t = .confirmed ∨ t = .cancelled)) ∨
       (s = .confirmed ∧ (t = .shipped ∨ t = .cancelled)) ∨
       (s = .shipped ∧ t = .delivered))) := by
  refine ⟨?_, ?_, ?_, ?_, ?_, ?_⟩
  · intro h; simp [Order.Confirm, h]
  · intro h; simp [Order.Ship, h]
  · intro h; simp [Order.Deliver, h]
  · intro h; simp [Order.Cancel, h]
  · intro h
    refine ⟨{ o with status := .cancelled, updatedAt := now }, ?_, rfl⟩
    simp [Order.Cancel, h]
  · intro s t; cases s <;> cases t <;> simp [OrderStatus.CanTransitionTo]

/-- C3 witness: the amended claim evaluated on concrete orders — a
`cancelled` order cannot be confirmed, and re-cancelling it succeeds with
the status still `cancelled`. -/
theorem claim_C3_witness :
    (Order.Confirm cancelledOrderW 7 = .error "can only confirm draft orders") ∧
    (∃ o', Order.Cancel cancelledOrderW 7 = .ok o' ∧ o'.status = .cancelled) :=
  ⟨(claim_C3 cancelledOrderW 7).1 (by decide),
   (claim_C3 cancelledOrderW 7).2.2.2.2.1 rfl⟩

/-- A concrete Draft order holding a single USD-priced item. -/
def usdOrderW : Order :=
  { id := "order-5"
    customerID := "customer-5"
    items := [{ productID := "p1", quantity := 2, price := { amount := 1000, currency := "USD" } }]
    status := .draft
    totalAmount := { amount := 2000, currency := "USD" }
    shippingAddress := { street := "s", city := "c", state := "st", zip := "z", country := "US" }
    createdAt := 1
    updatedAt := 2 }

/-- C5 counterexample: adding a EUR-priced item to an order whose items
and total are in USD is not rejected — `Order.AddItem` performs no
currency comparison, the mixed-currency item is appended, and the new
total sums the raw amounts under a hard-coded `"USD"`. -/
theorem claim_C5_counterexample :
    Order.AddItem usdOrderW "p2" 1 { amount := 500, currency := "EUR" } 9 =
      .ok { usdOrderW with
              items := usdOrderW.items ++
                [{ productID := "p2", quantity := 1, price := { amount := 500, currency := "EUR" } }]
              totalAmount := { amount := 2500, currency := "USD" }
              updatedAt := 9 } := rfl

/-- C5 (amended): `Order.AddItem` checks only the Draft status and a
positive quantity — never the currency. An item of any currency is
accepted, appended to the items list, and the recomputed total sums
`price.amount * quantity` over all items regardless of their currencies,
with the total's currency unconditionally `"USD"`. -/
theorem claim_C5 (o : Order) (pid : String) (q : Int) (price : Money) (now : Nat)
    (hs : o.status = .draft) (hq : 0 < q) :
    ∃ o', o.AddItem pid q price now = .ok o' ∧
      o'.items = o.items ++ [{ productID := pid, quantity := q, price := price }] ∧
      o'.totalAmount.currency = "USD" ∧
      o'.totalAmount.amount =
        ((o.items ++ [({ productID := pid, quantity := q, price := price } : OrderItem)]).map
          (fun i : OrderItem => i.price.amount * i.quantity)).sum := by
  have hq' : ¬ q ≤ 0 := by omega
  refine ⟨{ ({ o with items := o.items ++
      [{ productID := pid, quantity := q, price := price }] } : Order).recalculateTotal with
        updatedAt := now }, ?_, ?_, ?_, ?_⟩
  · simp [Order.AddItem, hs, hq']
  · simp [Order.recalculateTotal]
  · rfl
  · simp [Order.recalculateTotal, recalcFold_eq_sum]

/-- C5 witness: the amended claim at the concrete mixed-currency input —
the EUR item is accepted and the total becomes 2500 "USD". -/
theorem claim_C5_witness :
    ∃ o', Order.AddItem usdOrderW "p2" 1 { amount := 500, currency := "EUR" } 9 = .ok o' ∧
      o'.items = usdOrderW.items ++
        [{ productID := "p2", quantity := 1, price := { amount := 500, currency := "EUR" } }] ∧
      o'.totalAmount.currency = "USD" ∧
      o'.totalAmount.amount =
        ((usdOrderW.items ++
          [({ productID := "p2", quantity := 1,
              price := { amount := 500, currency := "EUR" } } : OrderItem)]).map
            (fun i : OrderItem => i.price.amount * i.quantity)).sum :=
  claim_C5 usdOrderW "p2" 1 { amount := 500, currency := "EUR" } 9 rfl (by decide)

/-- C7: after a successful `AddItem` or `RemoveItem` the order's total
amount is the sum over the resulting items of price amount times
quantity. -/
theorem claim_C7 (o : Order) (pid : String) (q : Int) (price : Money) (now : Nat)
    (o' : Order) :
    (o.AddItem pid q price now = .ok o' →
      o'.totalAmount.amount = (o'.items.map (fun i : OrderItem => i.price.amount * i.quantity)).sum) ∧
    (o.RemoveItem pid now = .ok o' →
      o'.totalAmount.amount = (o'.items.map (fun i : OrderItem => i.price.amount * i.quantity)).sum) := by
  constructor
  · intro h
    unfold Order.AddItem at h
    by_cases hs : o.status = .draft
    · by_cases hq : q ≤ 0
      · simp [hs, hq] at h
      · simp only [hs, ne_eq, not_true_eq_false, if_false, hq, if_neg, ite_false] at h
        simp [hs, hq] at h
        rw [← h]
        simp [Order.recalculateTotal, recalcFold_eq_sum]
    · simp [hs] at h
  · intro h
    unfold Order.RemoveItem at h
    by_cases hs : o.status = .draft
    · cases hr : removeFirstItem pid o.items with
      | none => simp [hs, hr] at h
      | some items =>
          simp [hs, hr] at h
          rw [← h]
          simp [Order.recalculateTotal, recalcFold_eq_sum]
    · simp [hs] at h

/-- The spec's two-line-item scenario order: Draft, then items
(price 1000, qty 2) and (price 500, qty 1) added. -/
def scenarioOrder1 : Order :=
  { id := "order-7"
    customerID := "customer-7"
    items := [{ productID := "p1", quantity := 2, price := { amount := 1000, currency := "USD" } }]
    status := .draft
    totalAmount := { amount := 2000, currency := "USD" }
    shippingAddress := { street := "s", city := "c", state := "st", zip := "z", country := "US" }
    createdAt := 0
    updatedAt := 1 }

/-- The scenario order after the second `AddItem`. -/
def scenarioOrder2 : Order :=
  { scenarioOrder1 with
      items := scenarioOrder1.items ++
        [{ productID := "p2", quantity := 1, price := { amount := 500, currency := "USD" } }]
      totalAmount := { amount := 2500, currency := "USD" }
      updatedAt := 2 }

/-- C7 witness: the spec scenario — two line items (1000×2, 500×1) —
satisfies the invariant and the total equals 2500. -/
theorem claim_C7_witness :
    (scenarioOrder2.totalAmount.amount =
      (scenarioOrder2.items.map (fun i : OrderItem => i.price.amount * i.quantity)).sum) ∧
    scenarioOrder2.totalAmount.amount = 2500 :=
  ⟨(claim_C7 scenarioOrder1 "p2" 1 { amount := 500, currency := "USD" } 2 scenarioOrder2).1
      rfl,
   by decide⟩

/-! ## Claim theorems: the command service -/

/-- The write-side database before the failing command: empty. -/
def emptyWriteState : WriteState := { orders := [], eventStore := [], outbox := [] }

/-- A valid create-order command (the README quick-start example). -/
def createCmdW : CreateOrderCommand :=
  { customerID := "customer-123"
    items := [{ productID := "product-456", quantity := 2,
                price := { amount := 2999, currency := "USD" } }]
    shippingAddress := { street := "123 Main St", city := "New York", state := "NY",
                         zip := "10001", country := "US" } }

/-- Only the outbox insert fails. -/
def outboxFaultW : StorageFaults :=
  { orderSaveFails := false, eventStoreFails := false, outboxFails := true }

/-- C1: `CommandService.CreateOrder` issues its three storage calls
sequentially on the shared handle with no enclosing transaction, so when
the outbox insert fails the command returns an error while the aggregate
row (and the event-store row) stay committed and the outbox stays empty
— the aggregate-store write is not rolled back and the two effects are
observed apart. -/
theorem claim_C1 :
    (CommandService.CreateOrder emptyWriteState outboxFaultW createCmdW
        "order-1" "outbox-row-1" 5).1 = .error "failed to save event to outbox" ∧
    (CommandService.CreateOrder emptyWriteState outboxFaultW createCmdW
        "order-1" "outbox-row-1" 5).2.orders ≠ [] ∧
    (CommandService.CreateOrder emptyWriteState outboxFaultW createCmdW
        "order-1" "outbox-row-1" 5).2.outbox = [] := by
  refine ⟨rfl, ?_, rfl⟩
  intro h
  exact absurd (congrArg List.length h) (by decide)

/-- `Order.AddItem` never changes the order identity. -/
theorem AddItem_id (o : Order) (pid : String) (q : Int) (price : Money) (now : Nat)
    (o' : Order) (h : o.AddItem pid q price now = .ok o') : o'.id = o.id := by
  unfold Order.AddItem at h
  by_cases hs : o.status = .draft
  · by_cases hq : q ≤ 0
    · simp [hs, hq] at h
    · simp [hs, hq] at h
      rw [← h]
      rfl
  · simp [hs] at h

/-- The `CreateOrder` item loop never changes the order identity. -/
theorem addItemsLoop_id (items : List OrderItemCommand) :
    ∀ (o o' : Order) (now : Nat), addItemsLoop o items now = .ok o' → o'.id = o.id := by
  induction items with
  | nil => intro o o' now h; simp [addItemsLoop] at h; rw [h]
  | cons i rest ih =>
      intro o o' now h
      unfold addItemsLoop at h
      cases hadd : o.AddItem i.productID i.quantity i.price now with
      | error e => rw [hadd] at h; simp at h
      | ok o1 =>
          rw [hadd] at h
          simp at h
          exact (ih o1 o' now h).trans (AddItem_id o i.productID i.quantity i.price now o1 hadd)

/-- C10: of the five commands, only `CreateOrder` writes the event store
— `ConfirmOrder`, `CancelOrder`, `AddOrderItem` and `RemoveOrderItem`
leave the `events` table untouched on every path, while `CreateOrder`
either leaves it untouched (on a failing path) or appends exactly the
one `OrderCreated` row at version 1 keyed by the new aggregate. -/
theorem claim_C10 (st : WriteState) (f : StorageFaults)
    (orderID productID reason outboxRowID : String) (q : Int) (price : Money) (now : Nat) :
    ((CommandService.ConfirmOrder st f orderID outboxRowID now).2.eventStore
        = st.eventStore) ∧
    ((CommandService.CancelOrder st f orderID reason outboxRowID now).2.eventStore
        = st.eventStore) ∧
    ((CommandService.AddOrderItem st f orderID productID q price outboxRowID now).2.eventStore
        = st.eventStore) ∧
    ((CommandService.RemoveOrderItem st f orderID productID outboxRowID now).2.eventStore
        = st.eventStore) ∧
    (∀ (cmd : CreateOrderCommand) (newOrderID obID : String),
      (CommandService.CreateOrder st f cmd newOrderID obID now).2.eventStore = st.eventStore ∨
      ∃ order : Order, order.id = newOrderID ∧
        (CommandService.CreateOrder st f cmd newOrderID obID now).2.eventStore =
          st.eventStore ++
            [{ aggregateID := newOrderID
               eventType := "OrderCreated"
               eventData := NewOrderCreatedEvent order now
               version := 1
               occurredAt := now }]) := by
  refine ⟨?_, ?_, ?_, ?_, ?_⟩
  · unfold CommandService.ConfirmOrder
    split
    · rfl
    split
    · rfl
    split
    · rfl
    split <;> rfl
  · unfold CommandService.CancelOrder
    split
    · rfl
    split
    · rfl
    split
    · rfl
    split <;> rfl
  · unfold CommandService.AddOrderItem
    split
    · rfl
    split
    · rfl
    split
    · rfl
    split <;> rfl
  · unfold CommandService.RemoveOrderItem
    split
    · rfl
    split
    · rfl
    split
    · rfl
    split <;> rfl
  · intro cmd newOrderID obID
    unfold CommandService.CreateOrder
    cases cmd.Validate with
    | error e => left; rfl
    | ok u =>
        cases hloop : addItemsLoop (NewOrder newOrderID cmd.customerID cmd.shippingAddress now)
            cmd.items now with
        | error e => left; simp [hloop]
        | ok order =>
            have hid : order.id = newOrderID :=
              addItemsLoop_id cmd.items _ order now hloop
            by_cases hf : f.orderSaveFails
            · left; simp [hloop, hf]
            · by_cases he : f.eventStoreFails
              · left; simp [hloop, hf, he]
              · right
                refine ⟨order, hid, ?_⟩
                by_cases ho : f.outboxFails <;>
                  simp [hloop, hf, he, ho, SaveEvents, DomainEvent.Type,
                    DomainEvent.OccurredAt, NewOrderCreatedEvent, DomainEvent.base, hid,
                    List.enum]

/-! ## Claim theorems: the Kafka event-bus message -/

/-- A concrete confirmed event for exercising message construction. -/
def confirmedEventW : DomainEvent :=
  .confirmed { eventType := "OrderConfirmed", aggregateID := "order-1", occurredAt := 3 }
    "customer-1"

/-- C4 counterexample: the message `Publish` constructs for a concrete
event has no key at all — its partition key is not the event's aggregate
identity. -/
theorem claim_C4_counterexample :
    ¬ (KafkaEventBus.buildMessage confirmedEventW).key =
        some (confirmedEventW.AggregateID) := by
  intro h
  simp [KafkaEventBus.buildMessage] at h

/-- C4 (amended): for every event, `Publish` builds the transport message
with `Partition = kafka.PartitionAny` and no message key; the event's
aggregate identity travels only in the `aggregate-id` header (alongside
the `event-type` header), so the key-based in-order-delivery guarantee
of the transport is not engaged by this construction. -/
theorem claim_C4 (event : DomainEvent) :
    (KafkaEventBus.buildMessage event).key = none ∧
    (KafkaEventBus.buildMessage event).partition = kafkaPartitionAny ∧
    (KafkaEventBus.buildMessage event).topic = "orders" ∧
    (KafkaEventBus.buildMessage event).headers =
      [{ key := "event-type", value := event.Type },
       { key := "aggregate-id", value := event.AggregateID }] ∧
    (KafkaEventBus.buildMessage event).value = event :=
  ⟨rfl, rfl, rfl, rfl, rfl⟩

/-! ## Claim theorems: the publisher drain loop -/

/-- Whether `processEvent` (parse + publish) succeeds for an outbox row. -/
def publishSucceeded (ack : KafkaMessage → Bool) (e : OutboxEvent) : Bool :=
  match EventPublisher.processEvent ack e with
  | .ok _ => true
  | .error _ => false

/-- The effect one batch entry `e` has on an arbitrary outbox row `x`
during the drain loop: flipped to processed exactly when `e`'s delivery
and mark both succeed and the row is `e`'s row. -/
def pubStep (ack : KafkaMessage → Bool) (markOk : OutboxEvent → Bool)
    (e x : OutboxEvent) : OutboxEvent :=
  if publishSucceeded ack e && markOk e then
    (if x.id == e.id then { x with processed := true } else x)
  else x

/-- The accumulated effect of a batch on a single outbox row. -/
def pubApplyAll (ack : KafkaMessage → Bool) (markOk : OutboxEvent → Bool) :
    List OutboxEvent → OutboxEvent → OutboxEvent
  | [], x => x
  | e :: es, x => pubApplyAll ack markOk es (pubStep ack markOk e x)

/-- Membership is preserved by the insertion step of the sort. -/
theorem mem_insertByCreatedAt {a e : OutboxEvent} :
    ∀ {l : List OutboxEvent}, a ∈ insertByCreatedAt e l ↔ a = e ∨ a ∈ l := by
  intro l
  induction l with
  | nil => simp [insertByCreatedAt]
  | cons x xs ih =>
      by_cases h : x.createdAt ≤ e.createdAt
      · simp only [insertByCreatedAt, if_pos h, List.mem_cons, ih]
        tauto
      · simp only [insertByCreatedAt, if_neg h, List.mem_cons]

/-- Membership is preserved by the `ORDER BY created_at` sort. -/
theorem mem_sortByCreatedAt {a : OutboxEvent} :
    ∀ {l : List OutboxEvent}, a ∈ sortByCreatedAt l ↔ a ∈ l := by
  intro l
  induction l with
  | nil => simp [sortByCreatedAt]
  | cons x xs ih => simp [sortByCreatedAt, mem_insertByCreatedAt, ih]

/-- The insertion step yields a permutation of consing. -/
theorem perm_insertByCreatedAt (e : OutboxEvent) :
    ∀ (l : List OutboxEvent), List.Perm (insertByCreatedAt e l) (e :: l) := by
  intro l
  induction l with
  | nil => simp [insertByCreatedAt]
  | cons x xs ih =>
      by_cases h : x.createdAt ≤ e.createdAt
      · simp only [insertByCreatedAt, if_pos h]
        exact (List.Perm.cons x ih).trans (List.Perm.swap e x xs)
      · simp [insertByCreatedAt, if_neg h]

/-- The sort is a permutation. -/
theorem perm_sortByCreatedAt :
    ∀ (l : List OutboxEvent), List.Perm (sortByCreatedAt l) l := by
  intro l
  induction l with
  | nil => simp [sortByCreatedAt]
  | cons x xs ih =>
      exact (perm_insertByCreatedAt x (sortByCreatedAt xs)).trans (List.Perm.cons x ih)

/-- The insertion step preserves sortedness by creation time. -/
theorem pairwise_insertByCreatedAt {e : OutboxEvent} :
    ∀ {l : List OutboxEvent},
      l.Pairwise (fun a b => a.createdAt ≤ b.createdAt) →
      (insertByCreatedAt e l).Pairwise (fun a b => a.createdAt ≤ b.createdAt) := by
  intro l
  induction l with
  | nil => intro _; simp [insertByCreatedAt]
  | cons x xs ih =>
      intro h
      rcases List.pairwise_cons.mp h with ⟨hx, hxs⟩
      by_cases hle : x.createdAt ≤ e.createdAt
      · simp only [insertByCreatedAt, if_pos hle]
        refine List.pairwise_cons.mpr ⟨?_, ih hxs⟩
        intro b hb
        rcases mem_insertByCreatedAt.mp hb with hb | hb
        · rw [hb]; exact hle
        · exact hx b hb
      · simp only [insertByCreatedAt, if_neg hle]
        have he : e.createdAt ≤ x.createdAt := Nat.le_of_not_le hle
        refine List.pairwise_cons.mpr ⟨?_, h⟩
        intro b hb
        rcases List.mem_cons.mp hb with hb | hb
        · rw [hb]; exact he
        · exact he.trans (hx b hb)

/-- The sort produces a list sorted by creation time. -/
theorem pairwise_sortByCreatedAt :
    ∀ (l : List OutboxEvent),
      (sortByCreatedAt l).Pairwise (fun a b => a.createdAt ≤ b.createdAt) := by
  intro l
  induction l with
  | nil => simp [sortByCreatedAt]
  | cons x xs ih => exact pairwise_insertByCreatedAt ih

/-- A batch row not sharing its id with `x` never touches `x`. -/
theorem pubApplyAll_no_match (ack : KafkaMessage → Bool) (markOk : OutboxEvent → Bool) :
    ∀ (bs : List OutboxEvent) (x : OutboxEvent),
      (∀ b ∈ bs, (x.id == b.id) = false) → pubApplyAll ack markOk bs x = x := by
  intro bs
  induction bs with
  | nil => intro x _; rfl
  | cons e es ih =>
      intro x h
      have he : (x.id == e.id) = false := h e (List.mem_cons_self e es)
      have hstep : pubStep ack markOk e x = x := by
        unfold pubStep
        split
        · rw [he]; simp
        · rfl
      unfold pubApplyAll
      rw [hstep]
      exact ih x (fun b hb => h b (List.mem_cons_of_mem e hb))

/-- One loop iteration of `processBatch` acts on the whole table as a
map of `pubStep`. -/
theorem processBatch_body_eq_map (ack : KafkaMessage → Bool) (markOk : OutboxEvent → Bool)
    (st : List OutboxEvent) (e : OutboxEvent) :
    (match EventPublisher.processEvent ack e with
      | .error _ => st
      | .ok _ => if markOk e then MarkAsProcessed st e.id else st) =
    st.map (pubStep ack markOk e) := by
  cases h : EventPublisher.processEvent ack e with
  | error err =>
      have : ∀ x ∈ st, pubStep ack markOk e x = x := by
        intro x _
        unfold pubStep
        rw [publishSucceeded, h]
        simp
      rw [List.map_congr_left this, List.map_id']
  | ok m =>
      by_cases hm : markOk e
      · have : ∀ x ∈ st, pubStep ack markOk e x =
            (if x.id == e.id then { x with processed := true } else x) := by
          intro x _
          unfold pubStep
          rw [publishSucceeded, h]
          simp [hm]
        rw [hm]
        simp only [if_true]
        rw [MarkAsProcessed, List.map_congr_left this]
      · have : ∀ x ∈ st, pubStep ack markOk e x = x := by
          intro x _
          unfold pubStep
          rw [publishSucceeded, h]
          simp [hm]
        rw [List.map_congr_left this, List.map_id']
        simp [hm]

/-- The whole drain loop acts on the table as a map of `pubApplyAll`. -/
theorem processBatch_foldl_eq_map (ack : KafkaMessage → Bool) (markOk : OutboxEvent → Bool) :
    ∀ (bs : List OutboxEvent) (st : List OutboxEvent),
      bs.foldl
        (fun st outboxEvent =>
          match EventPublisher.processEvent ack outboxEvent with
          | .error _ => st
          | .ok _ => if markOk outboxEvent then MarkAsProcessed st outboxEvent.id else st)
        st = st.map (pubApplyAll ack markOk bs) := by
  intro bs
  induction bs with
  | nil =>
      intro st
      have : ∀ x ∈ st, pubApplyAll ack markOk [] x = x := fun x _ => rfl
      simp only [List.foldl_nil]
      rw [List.map_congr_left this, List.map_id']
  | cons e es ih =>
      intro st
      simp only [List.foldl_cons]
      rw [processBatch_body_eq_map ack markOk st e, ih, List.map_map]
      rfl

/-- Per-row characterization of the drain loop over a duplicate-free
batch whose rows share an id with `x` only when equal to `x`. -/
theorem pubApplyAll_mem (ack : KafkaMessage → Bool) (markOk : OutboxEvent → Bool) :
    ∀ (bs : List OutboxEvent) (x : OutboxEvent), bs.Nodup →
      (∀ b ∈ bs, b.id = x.id → b = x) →
      pubApplyAll ack markOk bs x =
        (if x ∈ bs ∧ publishSucceeded ack x = true ∧ markOk x = true
         then { x with processed := true } else x) := by
  intro bs
  induction bs with
  | nil =>
      intro x _ _
      simp [pubApplyAll]
  | cons e es ih =>
      intro x hnd hinj
      rcases List.nodup_cons.mp hnd with ⟨hne, hndes⟩
      by_cases hx : x = e
      · subst hx
        have hxes : x ∉ es := hne
        have hids : ∀ b ∈ es, (({ x with processed := true } : OutboxEvent).id == b.id) = false := by
          intro b hb
          have : b ≠ x := fun hbx => hxes (hbx ▸ hb)
          have hbid : ¬ b.id = x.id := fun hid =>
            this (hinj b (List.mem_cons_of_mem x hb) hid)
          simp only [beq_eq_false_iff_ne, ne_eq]
          exact fun hxb => hbid hxb.symm
        have hidsx : ∀ b ∈ es, (x.id == b.id) = false := by
          intro b hb
          exact hids b hb
        by_cases hc : publishSucceeded ack x && markOk x
        · have hstep : pubStep ack markOk x x = { x with processed := true } := by
            unfold pubStep
            rw [if_pos hc]
            simp
          unfold pubApplyAll
          rw [hstep, pubApplyAll_no_match ack markOk es _ hids]
          have hcp : publishSucceeded ack x = true ∧ markOk x = true := by
            simpa [Bool.and_eq_true] using hc
          rw [if_pos ⟨List.mem_cons_self x es, hcp⟩]
        · have hstep : pubStep ack markOk x x = x := by
            unfold pubStep
            rw [if_neg hc]
          unfold pubApplyAll
          rw [hstep, pubApplyAll_no_match ack markOk es _ hidsx]
          have hcp : ¬ (publishSucceeded ack x = true ∧ markOk x = true) := by
            intro ⟨h1, h2⟩
            exact hc (by simp [h1, h2])
          rw [if_neg (fun h => hcp h.2)]
      · have heid : (x.id == e.id) = false := by
          have : ¬ e.id = x.id := fun hid => hx (hinj e (List.mem_cons_self e es) hid).symm
          simp only [beq_eq_false_iff_ne, ne_eq]
          exact fun hxe => this hxe.symm
        have hstep : pubStep ack markOk e x = x := by
          unfold pubStep
          split
          · rw [heid]; simp
          · rfl
        unfold pubApplyAll
        rw [hstep, ih x hndes (fun b hb => hinj b (List.mem_cons_of_mem e hb))]
        by_cases hm : x ∈ es
        · simp [hm, hx]
        · simp [hm, hx]

/-- C6: the drain cycle's fetched batch holds only unprocessed rows of
the table, sorted by creation time and at most 100 long; and the cycle
transforms the table row-by-row — a row is flipped to processed exactly
when it was fetched, its delivery to the bus succeeded, and the
mark-update committed; every other row (in particular every row whose
delivery failed) is left exactly as it was, still unprocessed and still
present for a later cycle. -/
theorem claim_C6 (outbox : List OutboxEvent) (ack : KafkaMessage → Bool)
    (markOk : OutboxEvent → Bool)
    (hNodup : (outbox.map (fun e => e.id)).Nodup) :
    (∀ e ∈ GetUnprocessedEvents outbox, e.processed = false ∧ e ∈ outbox) ∧
    (GetUnprocessedEvents outbox).Pairwise (fun a b => a.createdAt ≤ b.createdAt) ∧
    (GetUnprocessedEvents outbox).length ≤ 100 ∧
    EventPublisher.processBatch outbox ack markOk =
      outbox.map (fun e =>
        if e ∈ GetUnprocessedEvents outbox ∧ publishSucceeded ack e = true ∧ markOk e = true
        then { e with processed := true } else e) := by
  have hmem : ∀ e ∈ GetUnprocessedEvents outbox,
      e ∈ outbox.filter (fun e => !e.processed) := by
    intro e he
    exact mem_sortByCreatedAt.mp (List.mem_of_mem_take he)
  refine ⟨?_, ?_, ?_, ?_⟩
  · intro e he
    refine ⟨?_, List.mem_of_mem_filter (hmem e he)⟩
    have := List.of_mem_filter (hmem e he)
    simpa using this
  · exact (pairwise_sortByCreatedAt _).sublist
      (List.take_sublist 100 _) |>.imp (fun h => h) |>.sublist (List.Sublist.refl _)
  · exact List.length_take_le _ _
  · have hOutboxNodup : outbox.Nodup := List.Nodup.of_map _ hNodup
    have hBatchNodup : (GetUnprocessedEvents outbox).Nodup := by
      have h1 : (outbox.filter (fun e => !e.processed)).Nodup := hOutboxNodup.filter _
      have h2 : (sortByCreatedAt (outbox.filter (fun e => !e.processed))).Nodup :=
        ((perm_sortByCreatedAt _).symm.nodup h1)
      exact h2.sublist (List.take_sublist 100 _)
    unfold EventPublisher.processBatch
    rw [processBatch_foldl_eq_map]
    refine List.map_congr_left ?_
    intro x hx
    exact pubApplyAll_mem ack markOk _ x hBatchNodup
      (fun b hb hid => List.inj_on_of_nodup_map hNodup
        (List.mem_of_mem_filter (hmem b hb)) hx hid)

/-- A delivered `OrderConfirmed` event for aggregate `order-A`. -/
def eventC6A : DomainEvent :=
  .confirmed { eventType := "OrderConfirmed", aggregateID := "order-A", occurredAt := 1 }
    "customer-1"

/-- An `OrderConfirmed` event for aggregate `order-B` whose delivery the
broker refuses. -/
def eventC6B : DomainEvent :=
  .confirmed { eventType := "OrderConfirmed", aggregateID := "order-B", occurredAt := 2 }
    "customer-2"

/-- Outbox row carrying `eventC6A`, unprocessed. -/
def outboxRow1 : OutboxEvent :=
  { id := "ob-1", eventType := "OrderConfirmed", eventData := eventC6A,
    createdAt := 1, processed := false }

/-- Outbox row carrying `eventC6B`, unprocessed. -/
def outboxRow2 : OutboxEvent :=
  { id := "ob-2", eventType := "OrderConfirmed", eventData := eventC6B,
    createdAt := 2, processed := false }

/-- An already-processed outbox row. -/
def outboxRow3 : OutboxEvent :=
  { id := "ob-3", eventType := "OrderConfirmed", eventData := eventC6A,
    createdAt := 0, processed := true }

/-- A broker that acknowledges only messages carrying `eventC6A`. -/
def ackC6 (m : KafkaMessage) : Bool := m.value == eventC6A

/-- C6 witness: on a concrete outbox — one deliverable row, one row whose
delivery fails, one already-processed row — the drain cycle flips exactly
the delivered row and leaves the failed row unprocessed in place. -/
theorem claim_C6_witness :
    EventPublisher.processBatch [outboxRow1, outboxRow2, outboxRow3] ackC6 (fun _ => true) =
      [{ outboxRow1 with processed := true }, outboxRow2, outboxRow3] := by
  rw [(claim_C6 [outboxRow1, outboxRow2, outboxRow3] ackC6 (fun _ => true)
    (by decide)).2.2.2]
  decide

/-! ## Read-model helper lemmas -/

/-- `normItemDTO` leaves a second application without effect on the item
list. -/
theorem normItems_idem (l : List OrderItemDTO) :
    (l.map normItemDTO).map normItemDTO = l.map normItemDTO := by
  rw [List.map_map]
  exact List.map_congr_left (fun i _ => rfl)

/-- Normalization is idempotent on read-model records. -/
theorem normalizeDTO_idem (o : OrderDTO) : normalizeDTO (normalizeDTO o) = normalizeDTO o := by
  simp [normalizeDTO, normItems_idem]
  intro a _
  rfl

/-- Upserting the same record twice equals upserting it once. -/
theorem createOrder_idem (o : OrderDTO) :
    ∀ (db : List OrderDTO),
      OrderReadModel.CreateOrder (OrderReadModel.CreateOrder db o) o =
        OrderReadModel.CreateOrder db o := by
  intro db
  induction db with
  | nil => simp [OrderReadModel.CreateOrder]
  | cons row rest ih =>
      cases h : row.id == o.id with
      | true => simp [OrderReadModel.CreateOrder, h]
      | false => simp [OrderReadModel.CreateOrder, h, ih]

/-- Looking up the upserted key after an upsert finds the upserted record
(with its `created_at` preserved from any pre-existing row). -/
theorem find?_createOrder_self (o : OrderDTO) (k : String) (hk : o.id = k) :
    ∀ (db : List OrderDTO),
      (OrderReadModel.CreateOrder db o).find? (fun r => r.id == k) =
        some (match db.find? (fun r => r.id == k) with
              | some row => { o with createdAt := row.createdAt }
              | none => o) := by
  subst hk
  intro db
  induction db with
  | nil => simp [OrderReadModel.CreateOrder, List.find?]
  | cons row rest ih =>
      cases h : row.id == o.id with
      | true =>
          simp only [OrderReadModel.CreateOrder, h, if_true, List.find?]
          simp
      | false =>
          simp only [OrderReadModel.CreateOrder, h, Bool.false_eq_true, if_false, List.find?, ih]

/-- The common "fetch the record for `a`, modify it with `m`, upsert it
back; on a fetch-miss leave the table untouched" shape shared by every
non-`Created` projection branch (as observed through `applyEvent`). -/
def applyFMW (a : String) (m : OrderDTO → OrderDTO) (db : List OrderDTO) : List OrderDTO :=
  match db.find? (fun r => r.id == a) with
  | none => db
  | some row => OrderReadModel.CreateOrder db (m (normalizeDTO row))

/-- Normalizing a freshly fetched record again after a status update is a
no-op: the fetched copy already carries `"USD"` currencies. -/
theorem normalize_statusUpdate (s : String) (t : Nat) (o : OrderDTO) :
    normalizeDTO { normalizeDTO o with status := s, updatedAt := t } =
      { normalizeDTO o with status := s, updatedAt := t } := by
  simp [normalizeDTO, normItems_idem]
  intro a _
  rfl

/-- Fetching right after an upsert returns the normalized upserted record
when the upserted record's `created_at` matches the pre-existing row's. -/
theorem getOrder_after_createOrder (db : List OrderDTO) (x : OrderDTO) (a : String)
    (hxid : x.id = a) (row : OrderDTO)
    (hfind : db.find? (fun r => r.id == a) = some row)
    (hxc : x.createdAt = row.createdAt) :
    OrderReadModel.GetOrder (OrderReadModel.CreateOrder db x) a = .ok (normalizeDTO x) := by
  unfold OrderReadModel.GetOrder
  rw [find?_createOrder_self x a hxid db, hfind]
  simp only []
  rw [← hxc]

/-- A fetch-modify-write whose modifier preserves identity and creation
time, commutes with normalization on fetched records, and is idempotent,
is idempotent as a table transformation. -/
theorem applyFMW_idem (a : String) (m : OrderDTO → OrderDTO)
    (hid : ∀ o, (m o).id = o.id)
    (hca : ∀ o, (m o).createdAt = o.createdAt)
    (hnorm : ∀ o, normalizeDTO (m (normalizeDTO o)) = m (normalizeDTO o))
    (hidem : ∀ o, m (m o) = m o)
    (db : List OrderDTO) :
    applyFMW a m (applyFMW a m db) = applyFMW a m db := by
  cases hf : db.find? (fun r => r.id == a) with
  | none =>
      simp [applyFMW, hf]
  | some row =>
      have hrowid : row.id = a := by
        have := List.find?_some hf
        simpa using this
      have hxid : (m (normalizeDTO row)).id = a := by
        rw [hid (normalizeDTO row)]
        exact hrowid
      have hxc : (m (normalizeDTO row)).createdAt = row.createdAt := hca (normalizeDTO row)
      have hfind1 : (OrderReadModel.CreateOrder db (m (normalizeDTO row))).find?
          (fun r => r.id == a) = some (m (normalizeDTO row)) := by
        rw [find?_createOrder_self (m (normalizeDTO row)) a hxid db, hf]
        simp only []
        rw [← hxc]
      simp only [applyFMW, hf, hfind1]
      rw [hnorm row, hidem (normalizeDTO row), createOrder_idem]

/-- The status-update modifier used by the Confirmed/Shipped/Delivered/
Cancelled projection branches is an idempotent table transformation. -/
theorem applyFMW_status_idem (a s : String) (t : Nat) (db : List OrderDTO) :
    applyFMW a (fun o => { o with status := s, updatedAt := t })
        (applyFMW a (fun o => { o with status := s, updatedAt := t }) db) =
      applyFMW a (fun o => { o with status := s, updatedAt := t }) db :=
  applyFMW_idem a (fun o => { o with status := s, updatedAt := t }) (fun _ => rfl)
    (fun _ => rfl) (fun o => normalize_statusUpdate s t o) (fun _ => rfl) db

/-- The modifier the `handleOrderItemAdded` branch applies to the fetched
record: append the event's item, stamp the event time, recompute the
total from the resulting list. -/
def itemAddMod (pid : String) (q : Int) (price : Money) (t : Nat) (o : OrderDTO) : OrderDTO :=
  let items := o.items ++ [{ productID := pid, quantity := q, price := price }]
  { o with
    items := items
    updatedAt := t
    totalAmount := { o.totalAmount with amount := sumItemsDTO items } }

/-- The event kinds whose projection branch the spec declares idempotent. -/
def isIdempotentKind : DomainEvent → Bool
  | .created _ _ _ _ _ => true
  | .confirmed _ _ => true
  | .shipped _ _ => true
  | .delivered _ _ => true
  | .cancelled _ _ _ => true
  | .itemAdded _ _ _ _ => false
  | .itemRemoved _ _ => false

/-- The identity of a line item up to currency normalization: product,
quantity and price amount. -/
def itemKey (i : OrderItemDTO) : String × Int × Int :=
  (i.productID, i.quantity, i.price.amount)

/-- Currency normalization does not change an item's key. -/
theorem itemKey_normItemDTO (i : OrderItemDTO) : itemKey (normItemDTO i) = itemKey i := rfl

/-- `applyEvent` on a Confirmed event is the fetch-modify-write shape. -/
theorem applyEvent_confirmed_eq (b : BaseDomainEvent) (c : String) (db : List OrderDTO) :
    applyEvent (.confirmed b c) db =
      applyFMW b.aggregateID (fun o => { o with status := "confirmed", updatedAt := b.occurredAt }) db := by
  cases hf : db.find? (fun r => r.id == b.aggregateID) with
  | none => simp [applyEvent, OrderProjectionHandler.Handle, OrderReadModel.GetOrder, applyFMW, hf]
  | some row => simp [applyEvent, OrderProjectionHandler.Handle, OrderReadModel.GetOrder,
      OrderReadModel.UpdateOrder, applyFMW, hf]

/-- `applyEvent` on a Shipped event is the fetch-modify-write shape. -/
theorem applyEvent_shipped_eq (b : BaseDomainEvent) (c : String) (db : List OrderDTO) :
    applyEvent (.shipped b c) db =
      applyFMW b.aggregateID (fun o => { o with status := "shipped", updatedAt := b.occurredAt }) db := by
  cases hf : db.find? (fun r => r.id == b.aggregateID) with
  | none => simp [applyEvent, OrderProjectionHandler.Handle, OrderReadModel.GetOrder, applyFMW, hf]
  | some row => simp [applyEvent, OrderProjectionHandler.Handle, OrderReadModel.GetOrder,
      OrderReadModel.UpdateOrder, applyFMW, hf]

/-- `applyEvent` on a Delivered event is the fetch-modify-write shape. -/
theorem applyEvent_delivered_eq (b : BaseDomainEvent) (c : String) (db : List OrderDTO) :
    applyEvent (.delivered b c) db =
      applyFMW b.aggregateID (fun o => { o with status := "delivered", updatedAt := b.occurredAt }) db := by
  cases hf : db.find? (fun r => r.id == b.aggregateID) with
  | none => simp [applyEvent, OrderProjectionHandler.Handle, OrderReadModel.GetOrder, applyFMW, hf]
  | some row => simp [applyEvent, OrderProjectionHandler.Handle, OrderReadModel.GetOrder,
      OrderReadModel.UpdateOrder, applyFMW, hf]

/-- `applyEvent` on a Cancelled event is the fetch-modify-write shape. -/
theorem applyEvent_cancelled_eq (b : BaseDomainEvent) (c r : String) (db : List OrderDTO) :
    applyEvent (.cancelled b c r) db =
      applyFMW b.aggregateID (fun o => { o with status := "cancelled", updatedAt := b.occurredAt }) db := by
  cases hf : db.find? (fun rw => rw.id == b.aggregateID) with
  | none => simp [applyEvent, OrderProjectionHandler.Handle, OrderReadModel.GetOrder, applyFMW, hf]
  | some row => simp [applyEvent, OrderProjectionHandler.Handle, OrderReadModel.GetOrder,
      OrderReadModel.UpdateOrder, applyFMW, hf]

/-- `applyEvent` on an ItemAdded event is the fetch-modify-write shape
with the item-append modifier. -/
theorem applyEvent_itemAdded_eq (b : BaseDomainEvent) (pid : String) (q : Int)
    (price : Money) (db : List OrderDTO) :
    applyEvent (.itemAdded b pid q price) db =
      applyFMW b.aggregateID (itemAddMod pid q price b.occurredAt) db := by
  cases hf : db.find? (fun r => r.id == b.aggregateID) with
  | none => simp [applyEvent, OrderProjectionHandler.Handle, OrderReadModel.GetOrder, applyFMW, hf]
  | some row => simp [applyEvent, OrderProjectionHandler.Handle, OrderReadModel.GetOrder,
      OrderReadModel.UpdateOrder, applyFMW, itemAddMod, hf]

/-- C2: replaying the Projection Handler twice with the identical event
leaves the read-model table exactly as a single application does for the
Created, Confirmed, Shipped, Delivered and Cancelled kinds; for ItemAdded
idempotence fails — when the record exists, one application appends the
event's item once and a second application with the same event appends it
again, doubling it. -/
theorem claim_C2 :
    (∀ (e : DomainEvent) (db : List OrderDTO), isIdempotentKind e = true →
        applyEvent e (applyEvent e db) = applyEvent e db) ∧
    (∀ (base : BaseDomainEvent) (pid : String) (q : Int) (price : Money)
        (db : List OrderDTO) (e₀ : OrderDTO),
        db.find? (fun r => r.id == base.aggregateID) = some e₀ →
        (OrderReadModel.GetOrder (applyEvent (.itemAdded base pid q price) db)
            base.aggregateID).map (fun o => o.items.map itemKey) =
          .ok (e₀.items.map itemKey ++ [(pid, q, price.amount)]) ∧
        (OrderReadModel.GetOrder
            (applyEvent (.itemAdded base pid q price)
              (applyEvent (.itemAdded base pid q price) db))
            base.aggregateID).map (fun o => o.items.map itemKey) =
          .ok (e₀.items.map itemKey ++ [(pid, q, price.amount), (pid, q, price.amount)])) := by
  constructor
  · intro e db hk
    cases e with
    | created b cust items tot addr => exact createOrder_idem _ db
    | confirmed b cust =>
        simp only [applyEvent_confirmed_eq]
        exact applyFMW_status_idem b.aggregateID "confirmed" b.occurredAt db
    | shipped b cust =>
        simp only [applyEvent_shipped_eq]
        exact applyFMW_status_idem b.aggregateID "shipped" b.occurredAt db
    | delivered b cust =>
        simp only [applyEvent_delivered_eq]
        exact applyFMW_status_idem b.aggregateID "delivered" b.occurredAt db
    | cancelled b cust reason =>
        simp only [applyEvent_cancelled_eq]
        exact applyFMW_status_idem b.aggregateID "cancelled" b.occurredAt db
    | itemAdded b pid q price => simp [isIdempotentKind] at hk
    | itemRemoved b pid => simp [isIdempotentKind] at hk
  · intro base pid q price db e₀ hfind
    have hrowid : e₀.id = base.aggregateID := by
      simpa using List.find?_some hfind
    set x : OrderDTO := itemAddMod pid q price base.occurredAt (normalizeDTO e₀) with hx
    have hxid : x.id = base.aggregateID := hrowid
    have h1 : applyEvent (.itemAdded base pid q price) db =
        OrderReadModel.CreateOrder db x := by
      rw [applyEvent_itemAdded_eq]
      unfold applyFMW
      rw [hfind]
    have hget1 : OrderReadModel.GetOrder (OrderReadModel.CreateOrder db x)
        base.aggregateID = .ok (normalizeDTO x) :=
      getOrder_after_createOrder db x base.aggregateID hxid e₀ hfind rfl
    have hfind1 : (OrderReadModel.CreateOrder db x).find?
        (fun r => r.id == base.aggregateID) = some x := by
      rw [find?_createOrder_self x base.aggregateID hxid db, hfind]
      exact rfl
    set x₂ : OrderDTO := itemAddMod pid q price base.occurredAt (normalizeDTO x) with hx2
    have hxid2 : x₂.id = base.aggregateID := hrowid
    have h2 : applyEvent (.itemAdded base pid q price) (OrderReadModel.CreateOrder db x) =
        OrderReadModel.CreateOrder (OrderReadModel.CreateOrder db x) x₂ := by
      rw [applyEvent_itemAdded_eq]
      unfold applyFMW
      rw [hfind1]
    have hget2 : OrderReadModel.GetOrder
        (OrderReadModel.CreateOrder (OrderReadModel.CreateOrder db x) x₂)
        base.aggregateID = .ok (normalizeDTO x₂) :=
      getOrder_after_createOrder (OrderReadModel.CreateOrder db x) x₂ base.aggregateID
        hxid2 x hfind1 rfl
    refine ⟨?_, ?_⟩
    · rw [h1, hget1, hx]
      simp [normalizeDTO, itemAddMod, itemKey, normItemDTO, List.map_append, List.map_map,
        Function.comp_def, itemKey_normItemDTO, Except.map]
    · rw [h1, h2, hget2, hx2, hx]
      simp [normalizeDTO, itemAddMod, itemKey, normItemDTO, List.map_append, List.map_map,
        Function.comp_def, itemKey_normItemDTO, Except.map]

/-- The event kinds whose projection branch begins with a read-model
fetch (all but Created). -/
def requiresFetch : DomainEvent → Bool
  | .created _ _ _ _ _ => false
  | _ => true

/-- C8: for every event kind that fetches before projecting (Confirmed,
Shipped, Delivered, Cancelled, ItemAdded, ItemRemoved), a missing
read-model record makes the handler return the fetch-miss error — a
retryable failure — and the read-model table is left unchanged. -/
theorem claim_C8 (e : DomainEvent) (db : List OrderDTO)
    (hk : requiresFetch e = true)
    (hmiss : db.find? (fun r => r.id == e.AggregateID) = none) :
    OrderProjectionHandler.Handle e db = .error "order not found" ∧
    applyEvent e db = db := by
  have hbase : OrderProjectionHandler.Handle e db = .error "order not found" →
      applyEvent e db = db := by
    intro h1
    unfold applyEvent
    rw [h1]
  cases e with
  | created b cust items tot addr => simp [requiresFetch] at hk
  | confirmed b cust =>
      have hm : db.find? (fun r => r.id == b.aggregateID) = none := hmiss
      have h : OrderProjectionHandler.Handle (.confirmed b cust) db =
          .error "order not found" := by
        simp only [OrderProjectionHandler.Handle, OrderReadModel.GetOrder, hm]
      exact ⟨h, hbase h⟩
  | shipped b cust =>
      have hm : db.find? (fun r => r.id == b.aggregateID) = none := hmiss
      have h : OrderProjectionHandler.Handle (.shipped b cust) db =
          .error "order not found" := by
        simp only [OrderProjectionHandler.Handle, OrderReadModel.GetOrder, hm]
      exact ⟨h, hbase h⟩
  | delivered b cust =>
      have hm : db.find? (fun r => r.id == b.aggregateID) = none := hmiss
      have h : OrderProjectionHandler.Handle (.delivered b cust) db =
          .error "order not found" := by
        simp only [OrderProjectionHandler.Handle, OrderReadModel.GetOrder, hm]
      exact ⟨h, hbase h⟩
  | cancelled b cust reason =>
      have hm : db.find? (fun r => r.id == b.aggregateID) = none := hmiss
      have h : OrderProjectionHandler.Handle (.cancelled b cust reason) db =
          .error "order not found" := by
        simp only [OrderProjectionHandler.Handle, OrderReadModel.GetOrder, hm]
      exact ⟨h, hbase h⟩
  | itemAdded b pid q price =>
      have hm : db.find? (fun r => r.id == b.aggregateID) = none := hmiss
      have h : OrderProjectionHandler.Handle (.itemAdded b pid q price) db =
          .error "order not found" := by
        simp only [OrderProjectionHandler.Handle, OrderReadModel.GetOrder, hm]
      exact ⟨h, hbase h⟩
  | itemRemoved b pid =>
      have hm : db.find? (fun r => r.id == b.aggregateID) = none := hmiss
      have h : OrderProjectionHandler.Handle (.itemRemoved b pid) db =
          .error "order not found" := by
        simp only [OrderProjectionHandler.Handle, OrderReadModel.GetOrder, hm]
      exact ⟨h, hbase h⟩

/-- A concrete `OrderCreated` event. -/
def createdEventW : DomainEvent :=
  .created { eventType := "OrderCreated", aggregateID := "order-C", occurredAt := 1 }
    "customer-C"
    [{ productID := "p1", quantity := 2, price := { amount := 1000, currency := "USD" } }]
    { amount := 2000, currency := "USD" }
    { street := "s", city := "c", state := "st", zip := "z", country := "US" }

/-- The base of a concrete `OrderItemAdded` event for aggregate `order-X`. -/
def itemAddedBaseW : BaseDomainEvent :=
  { eventType := "OrderItemAdded", aggregateID := "order-X", occurredAt := 5 }

/-- A concrete read-model record for aggregate `order-X` with one item. -/
def dtoX : OrderDTO :=
  { id := "order-X"
    customerID := "customer-X"
    status := "draft"
    totalAmount := { amount := 100, currency := "USD" }
    shippingAddress := { street := "s", city := "c", state := "st", zip := "z", country := "US" }
    items := [{ productID := "p1", quantity := 1, price := { amount := 100, currency := "USD" } }]
    createdAt := 0
    updatedAt := 0 }

/-- C2 witness: a concrete Created event replayed twice leaves the table
as one application does, and a concrete ItemAdded event replayed twice
doubles the appended item on a concrete record. -/
theorem claim_C2_witness :
    (applyEvent createdEventW (applyEvent createdEventW []) = applyEvent createdEventW []) ∧
    (OrderReadModel.GetOrder
        (applyEvent (.itemAdded itemAddedBaseW "p9" 3 { amount := 250, currency := "USD" })
          [dtoX]) itemAddedBaseW.aggregateID).map (fun o => o.items.map itemKey) =
      .ok (dtoX.items.map itemKey ++ [("p9", 3, 250)]) ∧
    (OrderReadModel.GetOrder
        (applyEvent (.itemAdded itemAddedBaseW "p9" 3 { amount := 250, currency := "USD" })
          (applyEvent (.itemAdded itemAddedBaseW "p9" 3 { amount := 250, currency := "USD" })
            [dtoX])) itemAddedBaseW.aggregateID).map (fun o => o.items.map itemKey) =
      .ok (dtoX.items.map itemKey ++ [("p9", 3, 250), ("p9", 3, 250)]) :=
  ⟨claim_C2.1 createdEventW [] rfl,
   (claim_C2.2 itemAddedBaseW "p9" 3 { amount := 250, currency := "USD" } [dtoX] dtoX rfl).1,
   (claim_C2.2 itemAddedBaseW "p9" 3 { amount := 250, currency := "USD" } [dtoX] dtoX rfl).2⟩

/-- C8 witness: a concrete ItemAdded event hitting an empty read model is
rejected with the fetch-miss error and leaves the table empty. -/
theorem claim_C8_witness :
    OrderProjectionHandler.Handle
        (.itemAdded itemAddedBaseW "p9" 3 { amount := 250, currency := "USD" }) [] =
      .error "order not found" ∧
    applyEvent (.itemAdded itemAddedBaseW "p9" 3 { amount := 250, currency := "USD" }) [] = [] :=
  claim_C8 (.itemAdded itemAddedBaseW "p9" 3 { amount := 250, currency := "USD" }) [] rfl rfl

end DDDCQRS
